import Mathlib

/-!
Verification of the messaging/dispatch subsystem of the R1 SDK
(`R1Messaging` and its helpers).

The development shallowly embeds the TypeScript source:

* the platform primitives `JSON.parse` / `JSON.stringify` are modelled by an
  executable JSON parser (`jsonParse`) and by the escaping rules of
  `JSON.stringify` (`escChar`); JSON numbers are kept as exact
  mantissa/exponent pairs (IEEE-754 rounding is not modelled), and a `\u`
  escape denoting a lone UTF-16 surrogate — unrepresentable in a Lean
  `String` — decodes to U+FFFD;
* `sendMessage` and its wrappers become pure functions from a host
  environment (does the `PluginMessageHandler` transport exist?) to a
  result recording the thrown error, if any, and the exact strings handed
  to the transport;
* the inbound multiplexer (`initializeMessageHandler` and the
  `window.onPluginMessage` callback it installs) becomes an explicit world
  state: a single global callback slot, a list of `R1Messaging` instances,
  and a fan-out function that models JavaScript `Set.forEach` faithfully,
  including mutation of the set by a callback while the iteration is in
  progress (an element added during iteration is appended and visited; an
  element deleted before being reached is skipped).
-/

/-! ## JSON values (the result of the platform `JSON.parse`) -/

/-- A decoded JSON document. Numbers are exact `mantissa × 10 ^ exponent`
pairs read off the numeral, not IEEE-754 doubles. -/
inductive Json where
  | null
  | bool (b : Bool)
  | num (mantissa : Int) (exponent : Int)
  | str (s : String)
  | arr (elems : List Json)
  | obj (members : List (String × Json))
deriving Repr

/-- The character `{`, written via its code point. -/
def lbrace : Char := Char.ofNat 123

/-- The character `}`, written via its code point. -/
def rbrace : Char := Char.ofNat 125

/-- JSON insignificant whitespace (RFC 8259: space, tab, newline, return). -/
def isJsonWs (c : Char) : Bool :=
  c = ' ' || c = '\t' || c = '\n' || c = '\r'

/-- Drop leading JSON whitespace. -/
def skipWs : List Char → List Char
  | c :: cs => if isJsonWs c then skipWs cs else c :: cs
  | [] => []

/-- The numeric value of one hexadecimal digit, upper or lower case. -/
def hexVal (c : Char) : Option Nat :=
  if '0' ≤ c ∧ c ≤ '9' then some (c.toNat - 48)
  else if 'a' ≤ c ∧ c ≤ 'f' then some (c.toNat - 87)
  else if 'A' ≤ c ∧ c ≤ 'F' then some (c.toNat - 55)
  else none

/-- The lower-case hexadecimal digit for `d < 16` (as `JSON.stringify` emits). -/
def hexDigitChar (d : Nat) : Char :=
  if d < 10 then Char.ofNat (48 + d) else Char.ofNat (87 + d)

/-- The code point denoted by four hexadecimal digits. -/
def hexQuad (a b c d : Char) : Option Nat := do
  let x ← hexVal a
  let y ← hexVal b
  let z ← hexVal c
  let w ← hexVal d
  pure (((x * 16 + y) * 16 + z) * 16 + w)

/-- The single-character JSON escapes accepted after a backslash. -/
def shortEscape (c : Char) : Option Char :=
  if c = '"' then some '"'
  else if c = '\\' then some '\\'
  else if c = '/' then some '/'
  else if c = 'b' then some (Char.ofNat 8)
  else if c = 'f' then some (Char.ofNat 12)
  else if c = 'n' then some '\n'
  else if c = 'r' then some '\r'
  else if c = 't' then some '\t'
  else none

/-- Continuation after a `\u` escape in the high-surrogate range (code
point `n`): a following `\uDC00`–`\uDFFF` escape combines with it into one
scalar value; otherwise the lone half becomes U+FFFD (a Lean `String`
cannot hold it). Returns the decoded character and the remaining input. -/
def surrogateTail (n : Nat) (rs : List Char) : Char × List Char :=
  match rs with
  | u1 :: u2 :: a2 :: b2 :: x2 :: d2 :: rest4 =>
    if u1 = '\\' ∧ u2 = 'u' then
      match hexQuad a2 b2 x2 d2 with
      | some m =>
        if 56320 ≤ m ∧ m ≤ 57343 then
          (Char.ofNat (65536 + (n - 55296) * 1024 + (m - 56320)), rest4)
        else (Char.ofNat 65533, rs)
      | none => (Char.ofNat 65533, rs)
    else (Char.ofNat 65533, rs)
  | _ => (Char.ofNat 65533, rs)

/-- Body of a JSON string, after the opening quote: unescapes until the
closing quote and returns the decoded characters with the rest of the
input. A `\u` escape denoting a lone surrogate half becomes U+FFFD. Raw
control characters are refused, as `JSON.parse` refuses them. Every
recursive step consumes at least one character, so fuel equal to the
input length is always enough; callers pass exactly that. -/
def parseStringBody : Nat → List Char → List Char → Option (List Char × List Char)
  | 0, _, _ => none
  | fuel + 1, acc, cs =>
    match cs with
    | [] => none
    | c :: rest =>
      if c = '"' then some (acc.reverse, rest)
      else if c = '\\' then
        match rest with
        | [] => none
        | e :: rest2 =>
          if e = 'u' then
            match rest2 with
            | a :: b :: x :: d :: rest3 =>
              match hexQuad a b x d with
              | none => none
              | some n =>
                if 55296 ≤ n ∧ n ≤ 56319 then
                  parseStringBody fuel ((surrogateTail n rest3).1 :: acc) (surrogateTail n rest3).2
                else if 56320 ≤ n ∧ n ≤ 57343 then
                  parseStringBody fuel (Char.ofNat 65533 :: acc) rest3
                else
                  parseStringBody fuel (Char.ofNat n :: acc) rest3
            | _ => none
          else
            match shortEscape e with
            | some ch => parseStringBody fuel (ch :: acc) rest2
            | none => none
      else if c.toNat < 32 then none
      else parseStringBody fuel (c :: acc) rest

/-- Leading run of decimal digits. -/
def takeDigits : List Char → List Char × List Char
  | c :: cs =>
    if '0' ≤ c ∧ c ≤ '9' then
      let (ds, r) := takeDigits cs
      (c :: ds, r)
    else ([], c :: cs)
  | [] => ([], [])

/-- The natural number a digit run denotes. -/
def digitsToNat (ds : List Char) : Nat :=
  ds.foldl (fun acc c => acc * 10 + (c.toNat - 48)) 0

/-- A JSON numeral (RFC 8259 `number` grammar: optional minus, an integer
part without leading zeros, optional fraction, optional exponent), read as
an exact `mantissa × 10 ^ exponent` pair. -/
def parseNumber (cs : List Char) : Option ((Int × Int) × List Char) :=
  let (neg, cs1) := match cs with
    | '-' :: r => (true, r)
    | _ => (false, cs)
  match takeDigits cs1 with
  | ([], _) => none
  | (d0 :: ds, cs2) =>
    if d0 = '0' ∧ ds ≠ [] then none
    else
      let intPart := digitsToNat (d0 :: ds)
      let (fracDs, cs3) := match cs2 with
        | '.' :: r => takeDigits r
        | _ => ([], cs2)
      if (match cs2 with | '.' :: _ => fracDs.isEmpty | _ => false) then none
      else
        let mantAbs := intPart * 10 ^ fracDs.length + digitsToNat fracDs
        let step : Option (Int × List Char) := match cs3 with
          | 'e' :: r | 'E' :: r =>
            let (esign, r1) := match r with
              | '+' :: r2 => ((1 : Int), r2)
              | '-' :: r2 => ((-1 : Int), r2)
              | _ => ((1 : Int), r)
            match takeDigits r1 with
            | ([], _) => none
            | (eds, r2) => some (esign * (digitsToNat eds : Int), r2)
          | _ => some (0, cs3)
        match step with
        | none => none
        | some (expPart, cs4) =>
          let mant : Int := if neg then -(mantAbs : Int) else (mantAbs : Int)
          some ((mant, expPart - (fracDs.length : Int)), cs4)

/-- Wrap a parsed object body as a value. -/
def objResult : Option (List (String × Json) × List Char) → Option (Json × List Char)
  | some (ms, r) => some (.obj ms, r)
  | none => none

/-- Wrap a parsed array body as a value. -/
def arrResult : Option (List Json × List Char) → Option (Json × List Char)
  | some (es, r) => some (.arr es, r)
  | none => none

/-- Wrap a parsed string body as a value. -/
def strResult : Option (List Char × List Char) → Option (Json × List Char)
  | some (s, r) => some (.str (String.mk s), r)
  | none => none

/-- Wrap a parsed numeral as a value. -/
def numResult : Option ((Int × Int) × List Char) → Option (Json × List Char)
  | some ((m, e), r) => some (.num m e, r)
  | none => none

/-- Sequence one object member (key `k`, parsed value, then the rest of
the member list) into the member list. -/
def memberResult (k : List Char) (v : Option (Json × List Char))
    (next : List Char → Option (List (String × Json) × List Char)) :
    Option (List (String × Json) × List Char) :=
  match v with
  | none => none
  | some (j, rest4) =>
    match next rest4 with
    | none => none
    | some (ms, rest5) => some ((String.mk k, j) :: ms, rest5)

/-- Sequence one array element into the element list. -/
def elemResult (v : Option (Json × List Char))
    (next : List Char → Option (List Json × List Char)) :
    Option (List Json × List Char) :=
  match v with
  | none => none
  | some (j, rest) =>
    match next rest with
    | none => none
    | some (js, rest2) => some (j :: js, rest2)

mutual

/-- One JSON value (fuel-bounded recursion; `jsonParse` supplies ample fuel). -/
def parseValue : Nat → List Char → Option (Json × List Char)
  | 0, _ => none
  | f + 1, cs =>
    match skipWs cs with
    | [] => none
    | c :: rest =>
      if c = lbrace then objResult (parsePairs f rest)
      else if c = '[' then arrResult (parseItems f rest)
      else if c = '"' then strResult (parseStringBody rest.length [] rest)
      else if c = 'n' then
        match rest with
        | 'u' :: 'l' :: 'l' :: r => some (.null, r)
        | _ => none
      else if c = 't' then
        match rest with
        | 'r' :: 'u' :: 'e' :: r => some (.bool true, r)
        | _ => none
      else if c = 'f' then
        match rest with
        | 'a' :: 'l' :: 's' :: 'e' :: r => some (.bool false, r)
        | _ => none
      else numResult (parseNumber (c :: rest))

/-- Array body, after `[`: either `]` or a first element then `parseItemsNext`. -/
def parseItems : Nat → List Char → Option (List Json × List Char)
  | 0, _ => none
  | f + 1, cs =>
    match skipWs cs with
    | ']' :: rest => some ([], rest)
    | cs1 => elemResult (parseValue f cs1) (parseItemsNext f)

/-- After one array element: `,` and another element, or the closing `]`. -/
def parseItemsNext : Nat → List Char → Option (List Json × List Char)
  | 0, _ => none
  | f + 1, cs =>
    match skipWs cs with
    | ',' :: rest => elemResult (parseValue f rest) (parseItemsNext f)
    | ']' :: rest => some ([], rest)
    | _ => none

/-- Object body, after `{`: either `}` or a first member then `parsePairsNext`. -/
def parsePairs : Nat → List Char → Option (List (String × Json) × List Char)
  | 0, _ => none
  | f + 1, cs =>
    match skipWs cs with
    | [] => none
    | c :: rest =>
      if c = rbrace then some ([], rest)
      else if c = '"' then
        match parseStringBody rest.length [] rest with
        | none => none
        | some (k, rest2) =>
          match skipWs rest2 with
          | ':' :: rest3 => memberResult k (parseValue f rest3) (parsePairsNext f)
          | _ => none
      else none

/-- After one object member: `,` and another member, or the closing `}`. -/
def parsePairsNext : Nat → List Char → Option (List (String × Json) × List Char)
  | 0, _ => none
  | f + 1, cs =>
    match skipWs cs with
    | [] => none
    | c :: rest =>
      if c = rbrace then some ([], rest)
      else if c = ',' then
        match skipWs rest with
        | '"' :: rest1 =>
          match parseStringBody rest1.length [] rest1 with
          | none => none
          | some (k, rest2) =>
            match skipWs rest2 with
            | ':' :: rest3 => memberResult k (parseValue f rest3) (parsePairsNext f)
            | _ => none
        | _ => none
      else none

end

/-- Accept a parsed value as the whole document when only whitespace follows. -/
def docResult : Option (Json × List Char) → Option Json
  | some (j, rest) => if (skipWs rest).isEmpty then some j else none
  | none => none

/-- The platform `JSON.parse`, as a total function: `some` on a complete
JSON document (whitespace allowed around it), `none` where `JSON.parse`
throws a `SyntaxError`. -/
def jsonParse (s : String) : Option Json :=
  docResult (parseValue (s.length + 1) s.toList)

/-! ## The escaping performed by the platform `JSON.stringify` on strings -/

/-- One character of a string value, as `JSON.stringify` writes it: quote
and backslash escaped, the five short control escapes, `\u00xx` for the
remaining control characters, every other character written raw. -/
def escChar (c : Char) : List Char :=
  if c = '"' then ['\\', '"']
  else if c = '\\' then ['\\', '\\']
  else if c = Char.ofNat 8 then ['\\', 'b']
  else if c = '\t' then ['\\', 't']
  else if c = '\n' then ['\\', 'n']
  else if c = Char.ofNat 12 then ['\\', 'f']
  else if c = '\r' then ['\\', 'r']
  else if c.toNat < 32 then
    ['\\', 'u', '0', '0', hexDigitChar (c.toNat / 16), hexDigitChar (c.toNat % 16)]
  else [c]

/-- A whole string body, escaped. -/
def escList : List Char → List Char
  | [] => []
  | c :: cs => escChar c ++ escList cs

/-- A quoted JSON string literal for `s`, as `JSON.stringify` writes it. -/
def quoteChars (s : String) : List Char :=
  '"' :: escList s.toList ++ ['"']

/-- A JSON boolean literal. -/
def boolChars : Bool → List Char
  | true => ['t', 'r', 'u', 'e']
  | false => ['f', 'a', 'l', 's', 'e']

/-! ## Outbound dispatcher (`R1Messaging.sendMessage` and wrappers)

TypeScript optional boolean fields are `Option Bool` (`none` = the field
is absent / `undefined`; `JSON.stringify` omits it). -/

/-- The options bag of `askLLM` (TS `LLMOptions`). -/
structure LLMOptions where
  wantsR1Response : Option Bool := none
  wantsJournalEntry : Option Bool := none

/-- The options bag of `sendMessage` (TS `MessageOptions extends LLMOptions`). -/
structure MessageOptions where
  useLLM : Option Bool := none
  wantsR1Response : Option Bool := none
  wantsJournalEntry : Option Bool := none

/-- The outbound envelope `const payload: PluginMessage = { message, ...options }`. -/
structure PluginMessage where
  message : String
  useLLM : Option Bool
  wantsR1Response : Option Bool
  wantsJournalEntry : Option Bool
deriving Repr

/-- The spread `{ message, ...options }`: the message plus every field of
the options record. -/
def mkPayload (message : String) (options : MessageOptions) : PluginMessage :=
  { message := message
    useLLM := options.useLLM
    wantsR1Response := options.wantsR1Response
    wantsJournalEntry := options.wantsJournalEntry }

/-- One optional envelope field, serialized: nothing when absent
(`JSON.stringify` drops `undefined` properties), `,"name":bool` when set. -/
def optFieldChars (name : String) (v : Option Bool) : List Char :=
  match v with
  | none => []
  | some b => ',' :: quoteChars name ++ ':' :: boolChars b

/-- The serialized envelope, character by character. Fields are written in
declaration order (`message` first); JavaScript writes object-literal
insertion order, which can differ per call site, but the decoded record is
the same either way. -/
def payloadChars (p : PluginMessage) : List Char :=
  lbrace :: quoteChars "message" ++ ':' :: quoteChars p.message
    ++ optFieldChars "useLLM" p.useLLM
    ++ optFieldChars "wantsR1Response" p.wantsR1Response
    ++ optFieldChars "wantsJournalEntry" p.wantsJournalEntry
    ++ [rbrace]

/-- `JSON.stringify(payload)`. -/
def stringifyPayload (p : PluginMessage) : String :=
  String.mk (payloadChars p)

/-- One optional field of the decoded envelope. -/
def optMember (name : String) (v : Option Bool) : List (String × Json) :=
  match v with
  | none => []
  | some b => [(name, Json.bool b)]

/-- The decoded form the envelope should have: exactly the `message` field
plus the present fields of the options record, no others. -/
def payloadJson (p : PluginMessage) : Json :=
  .obj (("message", Json.str p.message)
    :: (optMember "useLLM" p.useLLM
        ++ optMember "wantsR1Response" p.wantsR1Response
        ++ optMember "wantsJournalEntry" p.wantsJournalEntry))

/-- Which host primitives exist in the current execution context
(`typeof PluginMessageHandler !== 'undefined'`, `typeof closeWebView`,
`typeof window`). -/
structure HostEnv where
  transportPresent : Bool
  closePresent : Bool := false
  windowPresent : Bool := true

/-- What a call on the send path did: the error it threw to the caller, if
any, and the strings handed to `PluginMessageHandler.postMessage`, in
order. The send path touches no other state. -/
structure SendResult where
  threw : Option String
  calls : List String
deriving Repr, DecidableEq

/-- The message of the error `sendMessage` throws without a transport. -/
def transportUnavailableMsg : String :=
  "PluginMessageHandler not available. Make sure you are running in R1 environment."

/-- `R1Messaging.sendMessage`: build the envelope, then forward its
serialization to the transport once, or throw when the transport primitive
is absent. -/
def sendMessage (env : HostEnv) (message : String)
    (options : MessageOptions := {}) : SendResult :=
  let payload := mkPayload message options
  if env.transportPresent then
    { threw := none, calls := [stringifyPayload payload] }
  else
    { threw := some transportUnavailableMsg, calls := [] }

/-- `R1Messaging.askLLM`: `sendMessage` with `{ useLLM: true, ...options }`. -/
def askLLM (env : HostEnv) (message : String)
    (options : LLMOptions := {}) : SendResult :=
  sendMessage env message
    { useLLM := some true
      wantsR1Response := options.wantsR1Response
      wantsJournalEntry := options.wantsJournalEntry }

/-- `R1Messaging.askLLMSpeak`. -/
def askLLMSpeak (env : HostEnv) (message : String)
    (saveToJournal : Bool := false) : SendResult :=
  askLLM env message
    { wantsR1Response := some true, wantsJournalEntry := some saveToJournal }

/-- Does `pat` occur as a contiguous substring (JS `String.prototype.includes`)? -/
def includesAux (pat : List Char) : List Char → Bool
  | [] => pat.isEmpty
  | c :: rest => pat.isPrefixOf (c :: rest) || includesAux pat rest

/-- JS `s.includes(pat)`: case-sensitive contiguous substring test. -/
def jsIncludes (s pat : String) : Bool :=
  includesAux pat.toList s.toList

/-- The instruction `askLLMJSON` appends. -/
def jsonSuffix : String := ". Please respond with a valid JSON object."

/-- `R1Messaging.askLLMJSON`: append the JSON instruction unless the
message already contains the literal substring `"JSON"`, then delegate. -/
def askLLMJSON (env : HostEnv) (message : String)
    (options : LLMOptions := {}) : SendResult :=
  askLLM env (if jsIncludes message "JSON" then message else message ++ jsonSuffix) options

/-- `R1Messaging.closePlugin`: the strings posted to the host close
primitive (a no-op, not an error, when that primitive is absent). -/
def closePlugin (env : HostEnv) : List String :=
  if env.closePresent then [""] else []

/-! ## Inbound multiplexer

Listeners are identified by `Nat` (JS reference identity). The
`messageHandlers : Set<MessageHandler>` becomes a duplicate-free list in
insertion order. A listener body is modelled by a `Behavior`: the set
mutations it performs on the dispatching instance when invoked, and
whether it then throws. -/

/-- `Set.add`: append, unless already present (reference identity). -/
def setAdd (s : List Nat) (x : Nat) : List Nat :=
  if x ∈ s then s else s ++ [x]

/-- `Set.delete`: remove by identity; no-op when absent. -/
def setDelete (s : List Nat) (x : Nat) : List Nat :=
  s.erase x

/-- A set mutation a listener can perform (`onMessage` / `offMessage`). -/
inductive HAction where
  | add (h : Nat)
  | remove (h : Nat)
deriving DecidableEq, Repr

/-- What one listener does when invoked: its set mutations, in order, and
whether it then throws. -/
structure Behavior where
  actions : List HAction := []
  throws : Bool := false

/-- During `Set.forEach` the live set is split into the entries already
visited (`p`) and those still ahead of the iterator (`r`). `Set.add` of a
new element appends it ahead of the iterator, so it will be visited this
iteration — JavaScript `Set` iteration is over the live set, not a
snapshot. -/
def pairAdd : List Nat × List Nat → Nat → List Nat × List Nat
  | (p, r), x => if x ∈ p ∨ x ∈ r then (p, r) else (p, r ++ [x])

/-- `Set.delete` during iteration: a deleted entry the iterator has not
reached yet will not be visited. -/
def pairDelete : List Nat × List Nat → Nat → List Nat × List Nat
  | (p, r), x => (p.erase x, r.erase x)

/-- Apply one listener-performed mutation to the iteration state. -/
def applyAction (pr : List Nat × List Nat) : HAction → List Nat × List Nat
  | .add x => pairAdd pr x
  | .remove x => pairDelete pr x

/-- Run the mutations of one listener, in order. -/
def runActions (acts : List HAction) (pr : List Nat × List Nat) : List Nat × List Nat :=
  acts.foldl applyAction pr

/-- The `messageHandlers.forEach(handler => try ... catch ...)` loop over
the live set: returns the ids invoked in order, the final set, and how
many listener exceptions were caught and logged. `none` only when `fuel`
runs out, which renders a listener program that keeps the
iteration alive forever. -/
def forEachGo (β : Nat → Behavior) : Nat → List Nat → List Nat → Option (List Nat × List Nat × Nat)
  | _, p, [] => some ([], p, 0)
  | 0, _, _ :: _ => none
  | fuel + 1, p, h :: r =>
    let pr := runActions (β h).actions (p ++ [h], r)
    match forEachGo β fuel pr.1 pr.2 with
    | none => none
    | some (inv, fin, errs) =>
      some (h :: inv, fin, errs + (if (β h).throws then 1 else 0))

/-- How many of the listed listeners throw. -/
def throwCount (β : Nat → Behavior) : List Nat → Nat
  | [] => 0
  | h :: r => throwCount β r + (if (β h).throws then 1 else 0)

/-- The `parsedData` field of an Enhanced Delivery. -/
inductive ParsedData where
  | undefined
  | json (j : Json)
  | raw (s : String)
deriving Repr

/-- The `let parsedData = undefined; if (data.data) try ... catch ...`
computation. `if (data.data)` is a JS truthiness test: it skips the parse
both when `data` is absent and when it is the empty string (the only falsy
string), so in both cases `parsedData` stays `undefined`. -/
def computeParsedData (d : Option String) : ParsedData :=
  match d with
  | none => .undefined
  | some s =>
    if s = "" then .undefined
    else
      match jsonParse s with
      | some j => .json j
      | none => .raw s

/-- An inbound delivery as the host passes it: the `data` field, and the
other host-defined fields, which pass through untouched. -/
structure Delivery where
  data : Option String := none
  extra : List (String × String) := []
deriving Repr

/-- The Enhanced Delivery `{ ...data, parsedData }` handed to listeners. -/
structure Enhanced where
  data : Option String
  extra : List (String × String)
  parsedData : ParsedData
deriving Repr

/-- Construct the Enhanced Delivery for an inbound delivery. -/
def mkEnhanced (d : Delivery) : Enhanced :=
  { data := d.data, extra := d.extra, parsedData := computeParsedData d.data }

/-- The body of the outer `try` inside `window.onPluginMessage`: reading
`data.data` on a malformed (null) delivery throws; otherwise the Enhanced
Delivery is built once and the fan-out runs, every invocation receiving
that one value. `Except.error` is a JS exception crossing the outer `try`
boundary; the outer `Option` is only the fan-out fuel. -/
def deliveryBody (β : Nat → Behavior) (handlers : List Nat) (fuel : Nat)
    (raw : Option Delivery) :
    Option (Except String (List (Nat × Enhanced) × List Nat × Nat)) :=
  match raw with
  | none => some (.error "TypeError: cannot read data of null")
  | some d =>
    let enhanced := mkEnhanced d
    match forEachGo β fuel [] handlers with
    | none => none
    | some (inv, fin, errs) =>
      some (.ok (inv.map (fun h => (h, enhanced)), fin, errs))

/-- What one invocation of the installed `window.onPluginMessage` callback
did: the listener invocations with the argument each received, the final
listener set, the per-listener errors logged, and whether the outer catch
logged a processing error. -/
structure DispatchResult where
  invocations : List (Nat × Enhanced)
  handlers : List Nat
  errorLogs : Nat
  processErrorLogged : Bool
deriving Repr

/-- The installed callback, outer `try`/`catch` included: a failure of the
body is caught, logged and swallowed, so the callback always returns
normally to the host (`none` is still only the fan-out fuel). -/
def onPluginMessageRun (β : Nat → Behavior) (handlers : List Nat) (fuel : Nat)
    (raw : Option Delivery) : Option DispatchResult :=
  match deliveryBody β handlers fuel raw with
  | none => none
  | some (.error _) =>
    some { invocations := [], handlers := handlers, errorLogs := 0, processErrorLogged := true }
  | some (.ok (inv, fin, errs)) =>
    some { invocations := inv, handlers := fin, errorLogs := errs, processErrorLogged := false }

/-- The listener ids a dispatch invoked, in order. -/
def invokedIds (r : DispatchResult) : List Nat :=
  r.invocations.map Prod.fst

/-! ## Process-level state: instances and the global callback slot -/

/-- One `R1Messaging` instance: its listener set and its private
`isInitialized` flag. -/
structure MInstance where
  messageHandlers : List Nat := []
  isInitialized : Bool := false
deriving Repr, DecidableEq

/-- The process: whether `window` exists, the instance whose closure sits in
the single global `window.onPluginMessage` slot, and the instances, in
construction order (an instance is its index). -/
structure World where
  windowPresent : Bool := true
  slot : Option Nat := none
  instances : List MInstance := []
deriving Repr, DecidableEq

/-- Instance `i` of the world. -/
def instGet (w : World) (i : Nat) : MInstance :=
  w.instances.getD i {}

/-- Replace the listener set of instance `i`. -/
def setInstHandlers (w : World) (i : Nat) (hs : List Nat) : World :=
  { w with instances := w.instances.set i { instGet w i with messageHandlers := hs } }

/-- `initializeMessageHandler` run by instance `i`: return early when this
flag of this instance is set or `window` is absent; otherwise assign
`window.onPluginMessage` (overwriting whatever closure was there) and set
the flag of this instance. -/
def initializeMessageHandler (w : World) (i : Nat) : World :=
  if (instGet w i).isInitialized || !w.windowPresent then w
  else
    { w with
      slot := some i
      instances := w.instances.set i { instGet w i with isInitialized := true } }

/-- `new R1Messaging()`: a fresh instance (empty set, flag down) whose
constructor immediately runs `initializeMessageHandler`. Returns the new
world and the index of the new instance. -/
def constructInstance (w : World) : World × Nat :=
  let i := w.instances.length
  (initializeMessageHandler { w with instances := w.instances ++ [{}] } i, i)

/-- `onMessage` on instance `i`. -/
def worldOnMessage (w : World) (i : Nat) (h : Nat) : World :=
  setInstHandlers w i (setAdd (instGet w i).messageHandlers h)

/-- `offMessage` on instance `i`. -/
def worldOffMessage (w : World) (i : Nat) (h : Nat) : World :=
  setInstHandlers w i (setDelete (instGet w i).messageHandlers h)

/-- `removeAllHandlers` on instance `i`. -/
def worldRemoveAllHandlers (w : World) (i : Nat) : World :=
  setInstHandlers w i []

/-- A dispatch in which nothing was invoked and nothing was logged. -/
def emptyDispatch (hs : List Nat) : DispatchResult :=
  { invocations := [], handlers := hs, errorLogs := 0, processErrorLogged := false }

/-- The host delivers: it invokes whatever closure sits in the global
slot (nothing happens when the slot is empty). The listener set of the
dispatching instance is read at dispatch and written back after. -/
def worldDeliver (β : Nat → Behavior) (w : World) (fuel : Nat)
    (raw : Option Delivery) : Option (World × DispatchResult) :=
  match w.slot with
  | none => some (w, emptyDispatch [])
  | some i =>
    match onPluginMessageRun β (instGet w i).messageHandlers fuel raw with
    | none => none
    | some r => some (setInstHandlers w i r.handlers, r)

/-! ## Fan-out and listener-set lemmas -/

theorem runActions_nil (pr : List Nat × List Nat) : runActions [] pr = pr := rfl

/-- Fan-out over listeners that do not mutate the set: every listener is
visited once, in order, whatever each one throws. -/
theorem forEachGo_pure (β : Nat → Behavior) :
    ∀ (r p : List Nat) (fuel : Nat), (∀ h ∈ r, (β h).actions = []) →
      r.length ≤ fuel → forEachGo β fuel p r = some (r, p ++ r, throwCount β r)
  | [], p, fuel, _, _ => by
    cases fuel <;> simp [forEachGo, throwCount]
  | h :: r, p, fuel, hpure, hlen => by
    cases fuel with
    | zero => exact absurd hlen (by simp)
    | succ f =>
      have hh : (β h).actions = [] := hpure h (by simp)
      have ih := forEachGo_pure β r (p ++ [h]) f
        (fun x hx => hpure x (by simp [hx]))
        (by simp at hlen ⊢; omega)
      simp only [forEachGo, hh, runActions_nil, ih, throwCount]
      simp

theorem mem_setAdd_self (s : List Nat) (x : Nat) : x ∈ setAdd s x := by
  by_cases h : x ∈ s <;> simp [setAdd, h]

theorem setAdd_nodup {s : List Nat} (hs : s.Nodup) (x : Nat) : (setAdd s x).Nodup := by
  by_cases h : x ∈ s <;> simp [setAdd, h, hs, List.nodup_append]

theorem setAdd_of_mem {s : List Nat} {x : Nat} (h : x ∈ s) : setAdd s x = s := by
  simp [setAdd, h]

/-! ## Round-trip of the serialized envelope through the JSON parser -/

theorem hexVal_hexDigitChar {d : Nat} (h : d < 16) : hexVal (hexDigitChar d) = some d := by
  interval_cases d <;> rfl

theorem skipWs_cons {c : Char} (t : List Char) (h : isJsonWs c = false) :
    skipWs (c :: t) = c :: t := by
  simp [skipWs, h]

/-- Parsing consumes one `JSON.stringify`-escaped character, one unit of
fuel, and recovers the character. -/
theorem parseStringBody_escChar (c : Char) (f : Nat) (acc rest : List Char) :
    parseStringBody (f + 1) acc (escChar c ++ rest) = parseStringBody f (c :: acc) rest := by
  by_cases h1 : c = '"'
  · subst h1; rfl
  by_cases h2 : c = '\\'
  · subst h2; simp only [escChar, h1, if_pos rfl, if_neg, if_false, List.cons_append]; rfl
  by_cases h3 : c = Char.ofNat 8
  · subst h3; simp only [escChar, h1, h2, if_pos rfl, if_neg, if_false, List.cons_append]; rfl
  by_cases h4 : c = '\t'
  · subst h4; simp only [escChar, h1, h2, h3, if_pos rfl, if_neg, if_false, List.cons_append]; rfl
  by_cases h5 : c = '\n'
  · subst h5
    simp only [escChar, h1, h2, h3, h4, if_pos rfl, if_neg, if_false, List.cons_append]; rfl
  by_cases h6 : c = Char.ofNat 12
  · subst h6
    simp only [escChar, h1, h2, h3, h4, h5, if_pos rfl, if_neg, if_false, List.cons_append]; rfl
  by_cases h7 : c = '\r'
  · subst h7
    simp only [escChar, h1, h2, h3, h4, h5, h6, if_pos rfl, if_neg, if_false, List.cons_append]
    rfl
  by_cases h8 : c.toNat < 32
  · have hdiv : c.toNat / 16 < 16 := by omega
    have hmod : c.toNat % 16 < 16 := by omega
    have hn : ((0 * 16 + 0) * 16 + c.toNat / 16) * 16 + c.toNat % 16 = c.toNat := by omega
    have hval : hexQuad '0' '0' (hexDigitChar (c.toNat / 16)) (hexDigitChar (c.toNat % 16))
        = some c.toNat := by
      rw [hexQuad, show hexVal '0' = some 0 from rfl,
        hexVal_hexDigitChar hdiv, hexVal_hexDigitChar hmod]
      exact congrArg some hn
    simp only [escChar, h1, h2, h3, h4, h5, h6, h7, h8, if_pos rfl, if_neg, if_false, if_true,
      List.cons_append, List.nil_append]
    simp only [parseStringBody, hval]
    simp [Char.ofNat_toNat, show ¬(55296 ≤ c.toNat ∧ c.toNat ≤ 56319) by
      omega, show ¬(56320 ≤ c.toNat ∧ c.toNat ≤ 57343) by omega]
  · simp only [escChar, h1, h2, h3, h4, h5, h6, h7, h8, if_neg, if_false, List.cons_append,
      List.singleton_append]
    simp only [parseStringBody]
    simp [h1, h2, h8]

/-- Parsing a whole escaped string body stops at the closing quote and
recovers the original characters, given fuel for each character plus one. -/
theorem parseStringBody_escList (m : List Char) :
    ∀ (fuel : Nat) (acc rest : List Char), m.length + 1 ≤ fuel →
      parseStringBody fuel acc (escList m ++ '"' :: rest) = some (acc.reverse ++ m, rest) := by
  induction m with
  | nil =>
    intro fuel acc rest hf
    cases fuel with
    | zero => exact absurd hf (by simp)
    | succ g => simp [escList, parseStringBody]
  | cons c m ih =>
    intro fuel acc rest hf
    cases fuel with
    | zero => exact absurd hf (by simp)
    | succ g =>
      rw [escList, List.append_assoc, parseStringBody_escChar,
        ih g (c :: acc) rest (by simp at hf ⊢; omega)]
      simp

theorem escChar_length_pos (c : Char) : 1 ≤ (escChar c).length := by
  unfold escChar
  repeat' split
  all_goals simp

theorem length_le_escList (m : List Char) : m.length ≤ (escList m).length := by
  induction m with
  | nil => simp [escList]
  | cons c m ih =>
    have := escChar_length_pos c
    simp only [escList, List.length_append, List.length_cons]
    omega

/-- The fuel the parser actually passes — the input length — is enough
for a whole escaped string body. -/
theorem parseStringBody_atLength (m : List Char) (acc rest : List Char) :
    parseStringBody (escList m ++ '"' :: rest).length acc (escList m ++ '"' :: rest)
      = some (acc.reverse ++ m, rest) := by
  apply parseStringBody_escList
  have := length_le_escList m
  simp only [List.length_append, List.length_cons]
  omega

/-- Parsing a quoted, escaped string value recovers the string. -/
theorem parseValue_string (s : String) (f : Nat) (rest : List Char) :
    parseValue (f + 1) ('"' :: (escList s.toList ++ '"' :: rest)) = some (.str s, rest) := by
  show strResult (parseStringBody (escList s.toList ++ '"' :: rest).length []
    (escList s.toList ++ '"' :: rest)) = some (.str s, rest)
  rw [parseStringBody_atLength]
  rfl

/-- Parsing the serialized optional-fields tail of the envelope yields
exactly the present fields. -/
theorem ppTail (u w j : Option Bool) (f : Nat) :
    parsePairsNext (f + 4)
      (optFieldChars "useLLM" u ++ optFieldChars "wantsR1Response" w
        ++ optFieldChars "wantsJournalEntry" j ++ [rbrace])
      = some (optMember "useLLM" u ++ optMember "wantsR1Response" w
        ++ optMember "wantsJournalEntry" j, []) := by
  have hc : ∀ o : Option Bool, o = none ∨ o = some true ∨ o = some false := by
    rintro (_ | _ | _) <;> simp
  rcases hc u with rfl | rfl | rfl <;> rcases hc w with rfl | rfl | rfl <;>
    rcases hc j with rfl | rfl | rfl <;> rfl

/-- An object body headed by an escaped key reduces to the member parse. -/
theorem parsePairs_quote (f : Nat) (m rest2 : List Char) :
    parsePairs (f + 1) ('"' :: (escList m ++ '"' :: rest2))
      = (match skipWs rest2 with
         | ':' :: rest3 => memberResult m (parseValue f rest3) (parsePairsNext f)
         | _ => none) := by
  show (match parseStringBody (escList m ++ '"' :: rest2).length []
      (escList m ++ '"' :: rest2) with
    | none => none
    | some (k, r2) =>
      match skipWs r2 with
      | ':' :: rest3 => memberResult k (parseValue f rest3) (parsePairsNext f)
      | _ => none) = _
  rw [parseStringBody_atLength]
  simp

/-- Parsing the object body of the serialized envelope yields exactly the
`message` member plus the present option fields. -/
theorem parsePairs_payload (p : PluginMessage) (f : Nat) :
    parsePairs (f + 5 + 1) ('"' :: (escList "message".toList ++ '"' :: (':' :: ('"' ::
      (escList p.message.toList ++ '"' ::
        (optFieldChars "useLLM" p.useLLM ++ optFieldChars "wantsR1Response" p.wantsR1Response
          ++ optFieldChars "wantsJournalEntry" p.wantsJournalEntry ++ [rbrace]))))))
      = some (("message", Json.str p.message)
          :: (optMember "useLLM" p.useLLM ++ optMember "wantsR1Response" p.wantsR1Response
            ++ optMember "wantsJournalEntry" p.wantsJournalEntry), []) := by
  rw [parsePairs_quote]
  show memberResult "message".toList
      (parseValue (f + 4 + 1) ('"' :: (escList p.message.toList ++ '"' ::
        (optFieldChars "useLLM" p.useLLM ++ optFieldChars "wantsR1Response" p.wantsR1Response
          ++ optFieldChars "wantsJournalEntry" p.wantsJournalEntry ++ [rbrace]))))
      (parsePairsNext (f + 1 + 4)) = _
  rw [parseValue_string]
  simp only [memberResult]
  rw [ppTail]
  rfl

/-- Parsing the whole serialized envelope yields its decoded record form. -/
theorem parseValue_payload (p : PluginMessage) (f : Nat) :
    parseValue (f + 5 + 1 + 1) (lbrace :: ('"' :: (escList "message".toList ++ '"' ::
      (':' :: ('"' :: (escList p.message.toList ++ '"' ::
        (optFieldChars "useLLM" p.useLLM ++ optFieldChars "wantsR1Response" p.wantsR1Response
          ++ optFieldChars "wantsJournalEntry" p.wantsJournalEntry ++ [rbrace])))))))
      = some (payloadJson p, []) := by
  show objResult (parsePairs (f + 5 + 1) ('"' :: (escList "message".toList ++ '"' ::
      (':' :: ('"' :: (escList p.message.toList ++ '"' ::
        (optFieldChars "useLLM" p.useLLM ++ optFieldChars "wantsR1Response" p.wantsR1Response
          ++ optFieldChars "wantsJournalEntry" p.wantsJournalEntry ++ [rbrace])))))))
      = some (payloadJson p, [])
  rw [parsePairs_payload]
  rfl

/-- The serialized envelope, re-associated into parsing order. -/
theorem payloadChars_eq (p : PluginMessage) :
    payloadChars p = lbrace :: ('"' :: (escList "message".toList ++ '"' ::
      (':' :: ('"' :: (escList p.message.toList ++ '"' ::
        (optFieldChars "useLLM" p.useLLM ++ optFieldChars "wantsR1Response" p.wantsR1Response
          ++ optFieldChars "wantsJournalEntry" p.wantsJournalEntry ++ [rbrace])))))) := by
  simp [payloadChars, quoteChars, List.append_assoc]

/-- The serialization round-trip: decoding `JSON.stringify(payload)`
recovers exactly the envelope record, field for field. -/
theorem jsonParse_stringifyPayload (p : PluginMessage) :
    jsonParse (stringifyPayload p) = some (payloadJson p) := by
  have hlen : 6 ≤ (payloadChars p).length := by
    rw [payloadChars_eq]
    simp only [List.length_cons, List.length_append]
    omega
  obtain ⟨g, hg⟩ : ∃ g, (payloadChars p).length + 1 = g + 5 + 1 + 1 :=
    ⟨(payloadChars p).length - 6, by omega⟩
  show docResult (parseValue ((stringifyPayload p).length + 1) (stringifyPayload p).toList)
    = some (payloadJson p)
  rw [show (stringifyPayload p).toList = payloadChars p from rfl,
    show (stringifyPayload p).length = (payloadChars p).length from rfl, hg,
    payloadChars_eq, parseValue_payload]
  rfl

/-! ## Shared dispatch lemmas and world lemmas -/

/-- A dispatch over listeners that do not mutate the set: everyone is
invoked once, in registration order, with the one Enhanced Delivery;
throwers are counted in the log and stop nothing. -/
theorem dispatch_pure (β : Nat → Behavior) (hs : List Nat) (fuel : Nat) (d : Delivery)
    (hpure : ∀ h ∈ hs, (β h).actions = []) (hfuel : hs.length ≤ fuel) :
    onPluginMessageRun β hs fuel (some d)
      = some { invocations := hs.map (fun h => (h, mkEnhanced d)),
               handlers := hs,
               errorLogs := throwCount β hs,
               processErrorLogged := false } := by
  simp only [onPluginMessageRun, deliveryBody, forEachGo_pure β hs [] fuel hpure hfuel]
  simp

theorem getD_append_singleton {α : Type} (l : List α) (a dflt : α) :
    (l ++ [a]).getD l.length dflt = a := by
  induction l with
  | nil => rfl
  | cons h t ih => simp only [List.cons_append, List.length_cons, List.getD_cons_succ]; exact ih

theorem getD_set_self {α : Type} (l : List α) (i : Nat) (b dflt : α) (h : i < l.length) :
    (l.set i b).getD i dflt = b := by
  induction l generalizing i with
  | nil => simp at h
  | cons x t ih =>
    cases i with
    | zero => rfl
    | succ n => simpa [List.getD] using ih n (by simpa using h)

/-! ## The claims -/

/-- C1: with the transport present, `sendMessage` makes exactly one
transport call, and the string it passes decodes to the record holding
exactly the `message` field plus the present fields of `options` — no
other fields. -/
theorem sendMessage_forwards_envelope (env : HostEnv) (m : String) (o : MessageOptions)
    (h : env.transportPresent = true) :
    sendMessage env m o
      = { threw := none, calls := [stringifyPayload (mkPayload m o)] } ∧
    jsonParse (stringifyPayload (mkPayload m o))
      = some (.obj (("message", Json.str m)
          :: (optMember "useLLM" o.useLLM ++ optMember "wantsR1Response" o.wantsR1Response
            ++ optMember "wantsJournalEntry" o.wantsJournalEntry))) := by
  constructor
  · simp [sendMessage, h]
  · rw [jsonParse_stringifyPayload]; rfl

/-- Witness for C1 at a concrete message and options record. -/
theorem sendMessage_forwards_envelope_witness :
    (({ transportPresent := true } : HostEnv).transportPresent = true) ∧
    (sendMessage { transportPresent := true } "hi" { useLLM := some true }
      = { threw := none, calls := [stringifyPayload (mkPayload "hi" { useLLM := some true })] } ∧
    jsonParse (stringifyPayload (mkPayload "hi" { useLLM := some true }))
      = some (.obj (("message", Json.str "hi")
          :: (optMember "useLLM" (some true) ++ optMember "wantsR1Response" none
            ++ optMember "wantsJournalEntry" none)))) :=
  ⟨rfl, sendMessage_forwards_envelope { transportPresent := true } "hi"
    { useLLM := some true } rfl⟩

/-- C6: without the transport primitive, `sendMessage` and each wrapper
throw the `TransportUnavailable` error synchronously, make no transport
call, and change nothing else (the send path owns no other state). -/
theorem transport_unavailable (env : HostEnv) (m : String) (o : MessageOptions)
    (lo : LLMOptions) (sj : Bool) (h : env.transportPresent = false) :
    sendMessage env m o = { threw := some transportUnavailableMsg, calls := [] } ∧
    askLLM env m lo = { threw := some transportUnavailableMsg, calls := [] } ∧
    askLLMSpeak env m sj = { threw := some transportUnavailableMsg, calls := [] } ∧
    askLLMJSON env m lo = { threw := some transportUnavailableMsg, calls := [] } := by
  refine ⟨?_, ?_, ?_, ?_⟩ <;> simp [sendMessage, askLLM, askLLMSpeak, askLLMJSON, h]

/-- Witness for C6 in a concrete environment without the transport. -/
theorem transport_unavailable_witness :
    (({ transportPresent := false } : HostEnv).transportPresent = false) ∧
    sendMessage { transportPresent := false } "hi" {}
      = { threw := some transportUnavailableMsg, calls := [] } ∧
    askLLM { transportPresent := false } "hi" {}
      = { threw := some transportUnavailableMsg, calls := [] } ∧
    askLLMSpeak { transportPresent := false } "hi" false
      = { threw := some transportUnavailableMsg, calls := [] } ∧
    askLLMJSON { transportPresent := false } "hi" {}
      = { threw := some transportUnavailableMsg, calls := [] } :=
  ⟨rfl, transport_unavailable { transportPresent := false } "hi" {} {} false rfl⟩

/-- C7: `askLLMJSON` delegates to `askLLM` with the message unchanged when
it contains the literal substring `"JSON"` (case-sensitive), else with the
JSON instruction appended. -/
theorem askLLMJSON_heuristic (env : HostEnv) (m : String) (o : LLMOptions) :
    (jsIncludes m "JSON" = true → askLLMJSON env m o = askLLM env m o) ∧
    (jsIncludes m "JSON" = false → askLLMJSON env m o = askLLM env (m ++ jsonSuffix) o) := by
  constructor <;> intro h <;> simp [askLLMJSON, h]

/-- Witness for C7 on the two example messages of the spec. -/
theorem askLLMJSON_heuristic_witness :
    jsIncludes "Respond in JSON please" "JSON" = true ∧
    jsIncludes "List 3 facts" "JSON" = false ∧
    askLLMJSON { transportPresent := true } "Respond in JSON please" {}
      = askLLM { transportPresent := true } "Respond in JSON please" {} ∧
    askLLMJSON { transportPresent := true } "List 3 facts" {}
      = askLLM { transportPresent := true } ("List 3 facts" ++ jsonSuffix) {} :=
  ⟨by decide, by decide,
    (askLLMJSON_heuristic { transportPresent := true } "Respond in JSON please" {}).1 (by decide),
    (askLLMJSON_heuristic { transportPresent := true } "List 3 facts" {}).2 (by decide)⟩

/-- A listener that only throws (the faulty listener of the witness). -/
def throwBeta : Nat → Behavior := fun n => if n = 1 then { throws := true } else {}

/-- A listener set whose members do nothing at all. -/
def pureBeta : Nat → Behavior := fun _ => {}

/-- C4: for listeners that do not mutate the set, a delivery invokes them
in exactly registration order, passes every one the same Enhanced Delivery
value, counts each thrower in the error log without stopping the fan-out,
and returns normally to the host. -/
theorem fanout_order_isolation (β : Nat → Behavior) (hs : List Nat) (fuel : Nat) (d : Delivery)
    (hpure : ∀ h ∈ hs, (β h).actions = []) (hfuel : hs.length ≤ fuel) :
    onPluginMessageRun β hs fuel (some d)
      = some { invocations := hs.map (fun h => (h, mkEnhanced d)),
               handlers := hs,
               errorLogs := throwCount β hs,
               processErrorLogged := false } :=
  dispatch_pure β hs fuel d hpure hfuel

/-- Witness for C4: two listeners, the first throwing; both are invoked in
order with the identical Enhanced Delivery, one error is logged. -/
theorem fanout_order_isolation_witness :
    (∀ h ∈ [1, 2], (throwBeta h).actions = []) ∧ ([1, 2] : List Nat).length ≤ 2 ∧
    onPluginMessageRun throwBeta [1, 2] 2 (some {})
      = some { invocations := [(1, mkEnhanced {}), (2, mkEnhanced {})],
               handlers := [1, 2], errorLogs := 1, processErrorLogged := false } :=
  ⟨by decide, by decide, by
    rw [fanout_order_isolation throwBeta [1, 2] 2 {} (by decide) (by decide)]; rfl⟩

/-- C8: adding the same listener reference twice leaves the Listener Set
exactly as after the first registration, and a delivery then invokes that
listener exactly once. -/
theorem onMessage_idempotent (s : List Nat) (x : Nat) (β : Nat → Behavior) (fuel : Nat)
    (d : Delivery) (hnd : s.Nodup)
    (hpure : ∀ h ∈ setAdd s x, (β h).actions = [])
    (hfuel : (setAdd s x).length ≤ fuel) :
    setAdd (setAdd s x) x = setAdd s x ∧
    (onPluginMessageRun β (setAdd s x) fuel (some d)).map
      (fun r => (invokedIds r).count x) = some 1 := by
  refine ⟨setAdd_of_mem (mem_setAdd_self s x), ?_⟩
  rw [dispatch_pure β (setAdd s x) fuel d hpure hfuel]
  simp only [Option.map_some']
  have hinv : invokedIds
      { invocations := (setAdd s x).map (fun h => (h, mkEnhanced d)),
        handlers := setAdd s x, errorLogs := throwCount β (setAdd s x),
        processErrorLogged := false } = setAdd s x := by
    simp only [invokedIds, List.map_map]
    exact List.map_id (setAdd s x)
  rw [hinv]
  exact congrArg some
    (List.count_eq_one_of_mem (setAdd_nodup hnd x) (mem_setAdd_self s x))

/-- Witness for C8 at a concrete set and listener. -/
theorem onMessage_idempotent_witness :
    ([1] : List Nat).Nodup ∧ (∀ h ∈ setAdd [1] 2, (pureBeta h).actions = []) ∧
    (setAdd [1] 2).length ≤ 2 ∧
    setAdd (setAdd [1] 2) 2 = setAdd [1] 2 ∧
    (onPluginMessageRun pureBeta (setAdd [1] 2) 2 (some {})).map
      (fun r => (invokedIds r).count 2) = some 1 :=
  ⟨by decide, by decide, by decide,
    (onMessage_idempotent [1] 2 pureBeta 2 {} (by decide) (by decide) (by decide)).1,
    (onMessage_idempotent [1] 2 pureBeta 2 {} (by decide) (by decide) (by decide)).2⟩

/-- A listener that registers listener `b` during its own invocation. -/
def addBeta (a b : Nat) : Nat → Behavior := fun n => if n = a then { actions := [.add b] } else {}

/-- A listener that unregisters listener `b` during its own invocation. -/
def removeBeta (a b : Nat) : Nat → Behavior :=
  fun n => if n = a then { actions := [.remove b] } else {}

/-- Counterexample to C2: with only listener 1 registered when the
delivery begins, and listener 1 registering listener 2 during the fan-out,
listener 2 IS invoked for that same delivery — the invoked set is [1, 2],
not the snapshot [1] the claim requires. -/
theorem fanout_snapshot_cex :
    (onPluginMessageRun (addBeta 1 2) [1] 2 (some {})).map invokedIds = some [1, 2] ∧
    (onPluginMessageRun (addBeta 1 2) [1] 2 (some {})).map invokedIds ≠ some [1] := by
  have h : (onPluginMessageRun (addBeta 1 2) [1] 2 (some {})).map invokedIds = some [1, 2] := rfl
  exact ⟨h, by rw [h]; simp⟩

/-- C2 (amended): the fan-out iterates the live set, not a snapshot — a
listener added by a listener during the fan-out is invoked for the current
delivery, and a not-yet-reached listener removed during the fan-out is not
invoked for it. -/
theorem fanout_live_iteration (a b : Nat) (hab : a ≠ b) (d : Delivery) :
    (onPluginMessageRun (addBeta a b) [a] 2 (some d)).map invokedIds = some [a, b] ∧
    (onPluginMessageRun (removeBeta a b) [a, b] 2 (some d)).map invokedIds = some [a] := by
  have hba : ¬(b = a) := fun h => hab h.symm
  have haa : ¬(b ∈ ([a] : List Nat)) := by simp [hba]
  constructor
  · simp [onPluginMessageRun, deliveryBody, forEachGo, runActions, applyAction, pairAdd,
      addBeta, invokedIds, hba, haa]
  · simp [onPluginMessageRun, deliveryBody, forEachGo, runActions, applyAction, pairDelete,
      removeBeta, invokedIds, hba, hab, List.erase_cons]

/-- C9: whenever the body of the host callback fails before the fan-out —
as it does on a malformed (null) delivery, whose `data` read throws — the
outer catch turns the failure into a logged, swallowed result: the
callback still returns a normal `DispatchResult` to the host, no listener
runs, and the listener set is untouched. -/
theorem dispatch_fault_swallowed (β : Nat → Behavior) (hs : List Nat) (fuel : Nat)
    (raw : Option Delivery) (e : String)
    (herr : deliveryBody β hs fuel raw = some (.error e)) :
    onPluginMessageRun β hs fuel raw
      = some { invocations := [], handlers := hs, errorLogs := 0,
               processErrorLogged := true } ∧
    deliveryBody β hs fuel none = some (.error "TypeError: cannot read data of null") := by
  constructor
  · simp [onPluginMessageRun, herr]
  · rfl

/-- Witness for C9: the host passes null. -/
theorem dispatch_fault_swallowed_witness :
    deliveryBody pureBeta [1] 1 none
      = some (.error "TypeError: cannot read data of null") ∧
    onPluginMessageRun pureBeta [1] 1 none
      = some { invocations := [], handlers := [1], errorLogs := 0,
               processErrorLogged := true } :=
  ⟨rfl, (dispatch_fault_swallowed pureBeta [1] 1 none
    "TypeError: cannot read data of null" rfl).1⟩

/-- Counterexample to C5: a delivery whose `data` field is present but
equal to the empty string. The empty string fails to decode as JSON, so
the claim requires `parsedData` to be the raw string `""`; the code
instead skips the decode entirely, by its truthiness test, and leaves it undefined. -/
theorem parsedData_empty_string_cex :
    jsonParse "" = none ∧
    (mkEnhanced { data := some "" }).parsedData = ParsedData.undefined ∧
    (mkEnhanced { data := some "" }).parsedData ≠ ParsedData.raw "" :=
  ⟨rfl, rfl, fun h => nomatch h⟩

/-- C5 (amended): `parsedData` is the decoded document when `data` is
present, non-empty and decodes; the raw string when `data` is present,
non-empty and fails to decode; and undefined when `data` is absent — or
empty, the empty string being falsy. Every listener invoked for the
delivery receives exactly this Enhanced Delivery. -/
theorem parsedData_decode_rule (β : Nat → Behavior) (hs : List Nat) (fuel : Nat)
    (dlv : Delivery) (s : String) (j : Json) (r : DispatchResult) (x : Nat × Enhanced) :
    (dlv.data = none → (mkEnhanced dlv).parsedData = .undefined) ∧
    (dlv.data = some "" → (mkEnhanced dlv).parsedData = .undefined) ∧
    (dlv.data = some s → s ≠ "" → jsonParse s = some j →
      (mkEnhanced dlv).parsedData = .json j) ∧
    (dlv.data = some s → s ≠ "" → jsonParse s = none →
      (mkEnhanced dlv).parsedData = .raw s) ∧
    (onPluginMessageRun β hs fuel (some dlv) = some r → x ∈ r.invocations →
      x.2 = mkEnhanced dlv) := by
  refine ⟨?_, ?_, ?_, ?_, ?_⟩
  · intro h; simp [mkEnhanced, computeParsedData, h]
  · intro h; simp [mkEnhanced, computeParsedData, h]
  · intro h hne hp; simp [mkEnhanced, computeParsedData, h, hne, hp]
  · intro h hne hp; simp [mkEnhanced, computeParsedData, h, hne, hp]
  · intro hrun hx
    simp only [onPluginMessageRun, deliveryBody] at hrun
    cases hfe : forEachGo β fuel [] hs with
    | none => rw [hfe] at hrun; exact absurd hrun (by simp)
    | some t =>
      obtain ⟨inv, fin, errs⟩ := t
      rw [hfe] at hrun
      simp only [Option.some.injEq] at hrun
      rw [← hrun] at hx
      simp only at hx
      obtain ⟨h, _, rfl⟩ := List.mem_map.mp hx
      rfl

/-- Witness for C5 (amended) on concrete deliveries of each kind. -/
theorem parsedData_decode_rule_witness :
    ((mkEnhanced { data := none }).parsedData = .undefined) ∧
    ((mkEnhanced { data := some "" }).parsedData = .undefined) ∧
    ((mkEnhanced { data := some "\x7b\"a\":1\x7d" }).parsedData
      = .json (.obj [("a", .num 1 0)])) ∧
    ((mkEnhanced { data := some "plain text" }).parsedData = .raw "plain text") ∧
    ((1, mkEnhanced { data := some "plain text" }).2
      = mkEnhanced { data := some "plain text" }) :=
  ⟨(parsedData_decode_rule pureBeta [] 0 { data := none } "" .null
      (emptyDispatch []) (0, mkEnhanced {})).1 rfl,
   (parsedData_decode_rule pureBeta [] 0 { data := some "" } "" .null
      (emptyDispatch []) (0, mkEnhanced {})).2.1 rfl,
   (parsedData_decode_rule pureBeta [] 0 { data := some "\x7b\"a\":1\x7d" }
      "\x7b\"a\":1\x7d" (.obj [("a", .num 1 0)])
      (emptyDispatch []) (0, mkEnhanced {})).2.2.1 rfl (by decide) rfl,
   (parsedData_decode_rule pureBeta [] 0 { data := some "plain text" }
      "plain text" .null (emptyDispatch []) (0, mkEnhanced {})).2.2.2.1 rfl (by decide) rfl,
   (parsedData_decode_rule pureBeta [1] 1 { data := some "plain text" }
      "plain text" .null
      { invocations := [(1, mkEnhanced { data := some "plain text" })],
        handlers := [1], errorLogs := 0, processErrorLogged := false }
      (1, mkEnhanced { data := some "plain text" })).2.2.2.2
      (dispatch_pure pureBeta [1] 1 { data := some "plain text" }
        (by decide) (by decide)) (by simp)⟩

/-- C10: a present-but-empty `data` field is treated like an absent one —
`parsedData` is undefined, not the raw empty string the decode-failure
fallback would give. -/
theorem parsedData_empty_treated_absent (extra : List (String × String)) :
    (mkEnhanced { data := some "", extra := extra }).parsedData = ParsedData.undefined ∧
    ParsedData.undefined ≠ ParsedData.raw "" :=
  ⟨rfl, fun h => nomatch h⟩

/-- The world after `new R1Messaging()` in a host with `window`. -/
def cexWorldA : World :=
  (constructInstance { windowPresent := true, slot := none, instances := [] }).1

/-- The world after registering listener 5 through that first instance. -/
def cexWorldB : World := worldOnMessage cexWorldA 0 5

/-- The world after a second `new R1Messaging()`. -/
def cexWorldC : World := (constructInstance cexWorldB).1

/-- Counterexample to C3: after a second instance is constructed, listener
5 — still registered on the first instance — receives nothing: the second
constructor overwrote `window.onPluginMessage` with a closure over its own
empty listener set, so the next delivery invokes no listener at all. -/
theorem second_instance_drops_listeners_cex :
    (instGet cexWorldC 0).messageHandlers = [5] ∧
    cexWorldC.slot = some 1 ∧
    (worldDeliver pureBeta cexWorldC 4 (some {})).map (fun pr => invokedIds pr.2)
      = some [] ∧
    (worldDeliver pureBeta cexWorldC 4 (some {})).map (fun pr => invokedIds pr.2)
      ≠ some [5] := by
  refine ⟨rfl, rfl, rfl, ?_⟩
  intro h
  rw [show (worldDeliver pureBeta cexWorldC 4 (some {})).map (fun pr => invokedIds pr.2)
    = some [] from rfl] at h
  exact absurd h (by simp)

/-- C3 (amended): re-running the setup on an already-initialized instance
is a no-op and only one global subscription slot exists at a time; but
constructing a second instance overwrites that slot with the new, empty
instance, so the next delivery dispatches to the (empty) listener set of
the new instance, and listeners of earlier instances receive nothing. -/
theorem init_per_instance_guard (w : World) (hwin : w.windowPresent = true)
    (β : Nat → Behavior) (fuel : Nat) (d : Delivery) (i : Nat)
    (hinit : (instGet w i).isInitialized = true) :
    initializeMessageHandler w i = w ∧
    (constructInstance w).1.slot = some (constructInstance w).2 ∧
    (instGet (constructInstance w).1 (constructInstance w).2).messageHandlers = [] ∧
    (worldDeliver β (constructInstance w).1 fuel (some d)).map (fun pr => invokedIds pr.2)
      = some [] := by
  have hslot : (constructInstance w).1.slot = some w.instances.length := by
    simp [constructInstance, initializeMessageHandler, instGet, getD_append_singleton, hwin]
  have hset : instGet (constructInstance w).1 w.instances.length
      = { messageHandlers := [], isInitialized := true } := by
    simp [constructInstance, initializeMessageHandler, instGet, getD_append_singleton, hwin,
      getD_set_self]
  have hnil : onPluginMessageRun β [] fuel (some d)
      = some { invocations := [], handlers := [], errorLogs := 0,
               processErrorLogged := false } := by
    simpa [throwCount] using dispatch_pure β [] fuel d (by simp) (by simp)
  refine ⟨by simp [initializeMessageHandler, hinit], hslot, ?_, ?_⟩
  · show (instGet (constructInstance w).1 w.instances.length).messageHandlers = []
    rw [hset]
  · show (worldDeliver β (constructInstance w).1 fuel (some d)).map
      (fun pr => invokedIds pr.2) = some []
    simp [worldDeliver, hslot, hset, hnil, invokedIds]

/-- Witness for C3 (amended) in the concrete two-instance scenario. -/
theorem init_per_instance_guard_witness :
    cexWorldB.windowPresent = true ∧
    (instGet cexWorldB 0).isInitialized = true ∧
    initializeMessageHandler cexWorldB 0 = cexWorldB ∧
    (constructInstance cexWorldB).1.slot = some (constructInstance cexWorldB).2 ∧
    (instGet (constructInstance cexWorldB).1 (constructInstance cexWorldB).2).messageHandlers
      = [] ∧
    (worldDeliver pureBeta (constructInstance cexWorldB).1 3 (some {})).map
      (fun pr => invokedIds pr.2) = some [] := by
  have h := init_per_instance_guard cexWorldB rfl pureBeta 3 {} 0 rfl
  exact ⟨rfl, rfl, h.1, h.2.1, h.2.2.1, h.2.2.2⟩

/-- Witness for C2 (amended) at concrete listeners 1 and 2. -/
theorem fanout_live_iteration_witness :
    (1 : Nat) ≠ 2 ∧
    (onPluginMessageRun (addBeta 1 2) [1] 2 (some {})).map invokedIds = some [1, 2] ∧
    (onPluginMessageRun (removeBeta 1 2) [1, 2] 2 (some {})).map invokedIds = some [1] := by
  have h := fanout_live_iteration 1 2 (by decide) {}
  exact ⟨by decide, h.1, h.2⟩
